import Mathlib

/-!
The CONNECT tunnel handler of simple-traffic.

A shallow embedding of `internal/proxy/proxy.go`.

The handler talks to its surroundings only through calls on the response
writer, the dialer, the hijacked connection, the target connection and the
logger.  Each such call is recorded as an `Effect`; what the surroundings
answer (dial result, hijack capability and result, what each `Read` and
`Write` returns) is supplied by an `Env`.  The two `io.Copy` loops of the
relay phase run concurrently; their interleaving is supplied as a schedule,
a list naming which of the two tasks performs its next call.
-/

namespace Proxy

/-! ## Data model -/

abbrev Byte := UInt8

/-- The two fields of `*http.Request` that the handler reads. -/
structure Request where
  Method : String
  Host : String
deriving Repr, DecidableEq

/-- One observable call made by the handler (or by the goroutine it starts). -/
inductive Effect where
  /-- Call `w.Header().Set(key, value)` -/
  | setHeader (key value : String)
  /-- Call `w.WriteHeader(code)` -/
  | writeHeader (code : Nat)
  /-- Call `w.Write(body)` on the response writer (still HTTP framed) -/
  | writeBody (body : String)
  /-- Call `net.DialTimeout(network, address, timeout)`, timeout in nanoseconds -/
  | dial (network address : String) (timeout : Nat)
  /-- Call `hijacker.Hijack()` -/
  | hijack
  /-- Statement `go func() ...` -/
  | spawn
  /-- Call `log.Printf` with the formatted message -/
  | log (msg : String)
  /-- Call `targetConn.Write(bs)` issued by `io.Copy(targetConn, clientConn)` -/
  | writeTarget (bs : List Byte)
  /-- Call `clientConn.Write(bs)` issued by `io.Copy(clientConn, targetConn)` -/
  | writeClient (bs : List Byte)
  /-- Call `clientConn.Close()` -/
  | closeClient
  /-- Call `targetConn.Close()` -/
  | closeTarget
deriving Repr, DecidableEq

/-- What one iteration of an `io.Copy(dst, src)` loop meets: `src.Read`
returns some bytes and the following `dst.Write` returns `writeErr`, or
`src.Read` returns `io.EOF`, or `src.Read` returns another error. -/
inductive CopyEvent where
  | chunk (bs : List Byte) (writeErr : Option String)
  | eof
  | readErr (msg : String)
deriving Repr, DecidableEq

/-- Answers of the surroundings to the calls the handler makes. -/
structure Env where
  /-- result of `net.DialTimeout(network, address, timeout)` -/
  DialTimeout : String → String → Nat → Except String Unit
  /-- whether `w.(http.Hijacker)` succeeds -/
  isHijacker : Bool
  /-- result of `hijacker.Hijack()`: an error, or the raw connection together with
  the unread client bytes held by the returned `*bufio.ReadWriter` -/
  Hijack : Except String (List Byte)
  /-- successive loop iterations of `io.Copy(targetConn, clientConn)` on the raw connection -/
  clientReads : List CopyEvent
  /-- successive loop iterations of `io.Copy(clientConn, targetConn)` -/
  targetReads : List CopyEvent
  /-- error text of a `clientConn.Read` issued after `clientConn.Close()` -/
  closedReadErr : String
  /-- error text of a `targetConn.Write` issued after `targetConn.Close()` -/
  closedWriteErr : String

/-- The two concurrently running copy loops of the relay phase. -/
inductive Task where
  /-- the goroutine running `io.Copy(targetConn, clientConn)` -/
  | goroutine
  /-- the handler itself running `io.Copy(clientConn, targetConn)` -/
  | handler
deriving Repr, DecidableEq

/-- Where the goroutine of lines 56-61 stands. -/
inductive GoroutinePhase where
  /-- inside `io.Copy(targetConn, clientConn)`, about to call `clientConn.Read` -/
  | reading
  /-- inside `io.Copy`, about to call `targetConn.Write(bs)`, which the
  surroundings will answer with `writeErr` -/
  | writing (bs : List Byte) (writeErr : Option String)
  /-- the copy returned the error `err`; `log.Printf` (line 59) is still to come -/
  | logging (err : String)
  /-- the goroutine has ended -/
  | done
deriving Repr, DecidableEq

/-- Where the handler stands from line 63 on. -/
inductive HandlerPhase where
  /-- inside `io.Copy(clientConn, targetConn)`, about to call `targetConn.Read` -/
  | reading
  /-- inside `io.Copy`, about to call `clientConn.Write(bs)`, which the
  surroundings will answer with `writeErr` -/
  | writing (bs : List Byte) (writeErr : Option String)
  /-- the copy returned the error `err`; `log.Printf` (line 65) is still to come -/
  | logging (err : String)
  /-- the function body is over; the deferred `clientConn.Close()` (line 53) is next -/
  | closingClient
  /-- the deferred `targetConn.Close()` (line 35) is next -/
  | closingTarget
  /-- the function `handleConnect` has returned -/
  | returned
deriving Repr, DecidableEq

/-- Execution state of one `handleConnect` call. -/
structure State where
  /-- calls made so far, oldest first -/
  trace : List Effect
  /-- loop iterations still ahead of the goroutine -/
  clientReads : List CopyEvent
  /-- loop iterations still ahead of the handler -/
  targetReads : List CopyEvent
  /-- progress of the goroutine -/
  goroutine : GoroutinePhase
  /-- progress of the handler -/
  handler : HandlerPhase
  /-- whether `clientConn.Close()` has been called -/
  clientClosed : Bool
  /-- whether `targetConn.Close()` has been called -/
  targetClosed : Bool
deriving Repr, DecidableEq

/-- Whether `handleConnect` has returned (its deferred calls have run). -/
def State.returned (s : State) : Bool :=
  match s.handler with
  | HandlerPhase.returned => true
  | _ => false

/-- Whether `io.Copy(targetConn, clientConn)`, the client-to-target copy, has
returned. -/
def State.clientToTargetDone (s : State) : Bool :=
  match s.goroutine with
  | GoroutinePhase.logging _ => true
  | GoroutinePhase.done => true
  | _ => false

/-- Whether `io.Copy(clientConn, targetConn)`, the target-to-client copy, has
returned. -/
def State.targetToClientDone (s : State) : Bool :=
  match s.handler with
  | HandlerPhase.reading => false
  | HandlerPhase.writing _ _ => false
  | _ => true

/-! ## Constants of the Go standard library used by the handler -/

/-- Go's `time.Second`, in nanoseconds (the unit of `time.Duration`). -/
def Second : Nat := 1000000000

def StatusOK : Nat := 200
def StatusMethodNotAllowed : Nat := 405
def StatusInternalServerError : Nat := 500
def StatusBadGateway : Nat := 502

/-- Go's `http.StatusText` on the status codes the handler uses: the reason
phrase that `net/http` puts on the status line after the code. -/
def StatusText (code : Nat) : String :=
  if code = 200 then "OK"
  else if code = 405 then "Method Not Allowed"
  else if code = 500 then "Internal Server Error"
  else if code = 502 then "Bad Gateway"
  else ""

/-- Go's `http.Error(w, msg, code)`: sets the plain-text headers, writes the status
code and then the message followed by a newline. -/
def httpError (msg : String) (code : Nat) : List Effect :=
  [ Effect.setHeader "Content-Type" "text/plain; charset=utf-8",
    Effect.setHeader "X-Content-Type-Options" "nosniff",
    Effect.writeHeader code,
    Effect.writeBody (msg ++ "\n") ]

/-! ## The relay phase (proxy.go lines 55-66)

Each step performs one call, so that every interleaving of the calls of the
goroutine with the calls of the handler is a schedule. -/

/-- One step of the goroutine (lines 56-61): the next call of
`io.Copy(targetConn, clientConn)`, or the log line after a failed copy.  The
goroutine closes nothing when its copy ends.  A `Read` on the client
connection fails once the handler has closed it, and so does a `Write` on the
target connection. -/
def stepGoroutine (env : Env) (s : State) : State :=
  match s.goroutine with
  | GoroutinePhase.done => s
  | GoroutinePhase.logging err =>
    { s with
      goroutine := GoroutinePhase.done,
      trace := s.trace ++ [Effect.log ("Client->Target copy error: " ++ err)] }
  | GoroutinePhase.writing bs writeErr =>
    match (if s.targetClosed then some env.closedWriteErr else writeErr) with
    | none =>
      { s with
        goroutine := GoroutinePhase.reading,
        trace := s.trace ++ [Effect.writeTarget bs] }
    | some err =>
      { s with
        goroutine := GoroutinePhase.logging err,
        trace := s.trace ++ [Effect.writeTarget bs] }
  | GoroutinePhase.reading =>
    if s.clientClosed then
      { s with goroutine := GoroutinePhase.logging env.closedReadErr }
    else
      match s.clientReads with
      | [] => s
      | CopyEvent.chunk bs writeErr :: rest =>
        { s with clientReads := rest, goroutine := GoroutinePhase.writing bs writeErr }
      | CopyEvent.eof :: rest =>
        { s with clientReads := rest, goroutine := GoroutinePhase.done }
      | CopyEvent.readErr err :: rest =>
        { s with clientReads := rest, goroutine := GoroutinePhase.logging err }

/-- One step of the handler from line 63 on: the next call of
`io.Copy(clientConn, targetConn)`, the log line after a failed copy (line 65),
or the next deferred call.  Go runs deferred calls last-deferred first:
`clientConn.Close()` (line 53), then `targetConn.Close()` (line 35). -/
def stepHandler (s : State) : State :=
  match s.handler with
  | HandlerPhase.returned => s
  | HandlerPhase.closingTarget =>
    { s with
      handler := HandlerPhase.returned,
      targetClosed := true,
      trace := s.trace ++ [Effect.closeTarget] }
  | HandlerPhase.closingClient =>
    { s with
      handler := HandlerPhase.closingTarget,
      clientClosed := true,
      trace := s.trace ++ [Effect.closeClient] }
  | HandlerPhase.logging err =>
    { s with
      handler := HandlerPhase.closingClient,
      trace := s.trace ++ [Effect.log ("Target->Client copy error: " ++ err)] }
  | HandlerPhase.writing bs none =>
    { s with
      handler := HandlerPhase.reading,
      trace := s.trace ++ [Effect.writeClient bs] }
  | HandlerPhase.writing bs (some err) =>
    { s with
      handler := HandlerPhase.logging err,
      trace := s.trace ++ [Effect.writeClient bs] }
  | HandlerPhase.reading =>
    match s.targetReads with
    | [] => s
    | CopyEvent.chunk bs writeErr :: rest =>
      { s with targetReads := rest, handler := HandlerPhase.writing bs writeErr }
    | CopyEvent.eof :: rest =>
      { s with targetReads := rest, handler := HandlerPhase.closingClient }
    | CopyEvent.readErr err :: rest =>
      { s with targetReads := rest, handler := HandlerPhase.logging err }

/-- One scheduling step: the named task performs its next call. -/
def step (env : Env) (s : State) (t : Task) : State :=
  match t with
  | Task.goroutine => stepGoroutine env s
  | Task.handler => stepHandler s

/-- Run the relay phase under a schedule. -/
def relay (env : Env) (s : State) (sched : List Task) : State :=
  sched.foldl (step env) s

/-! ## The handler (proxy.go lines 17-67) -/

/-- A `handleConnect` that returned without entering the relay phase. -/
def finished (trace : List Effect) (targetClosed : Bool) : State :=
  { trace := trace, clientReads := [], targetReads := [],
    goroutine := GoroutinePhase.done, handler := HandlerPhase.returned,
    clientClosed := false, targetClosed := targetClosed }

/-- The state in which `handleConnect` reaches line 63: the dial succeeded,
status 200 is written, the connection is taken over and the goroutine is
started. -/
def relayStart (env : Env) (r : Request) : State :=
  { trace :=
      [Effect.dial "tcp" r.Host (10 * Second),
       Effect.writeHeader StatusOK,
       Effect.hijack,
       Effect.spawn],
    clientReads := env.clientReads,
    targetReads := env.targetReads,
    goroutine := GoroutinePhase.reading,
    handler := HandlerPhase.reading,
    clientClosed := false,
    targetClosed := false }

/-- Method `Proxy.handleConnect` (lines 27-67). -/
def handleConnect (env : Env) (r : Request) (sched : List Task) : State :=
  match env.DialTimeout "tcp" r.Host (10 * Second) with
  | Except.error err =>
    finished
      ([Effect.dial "tcp" r.Host (10 * Second),
        Effect.log ("Failed to connect to target: " ++ err)] ++
        httpError "Bad Gateway" StatusBadGateway)
      false
  | Except.ok _ =>
    if env.isHijacker then
      match env.Hijack with
      | Except.error err =>
        finished
          [Effect.dial "tcp" r.Host (10 * Second),
           Effect.writeHeader StatusOK,
           Effect.hijack,
           Effect.log ("Failed to hijack connection: " ++ err),
           Effect.closeTarget]
          true
      | Except.ok _ => relay env (relayStart env r) sched
    else
      finished
        ([Effect.dial "tcp" r.Host (10 * Second),
          Effect.writeHeader StatusOK,
          Effect.log "Hijacking not supported"] ++
          httpError "Hijacking not supported" StatusInternalServerError ++
          [Effect.closeTarget])
        true

/-- Method `Proxy.ServeHTTP` (lines 17-25). -/
def ServeHTTP (env : Env) (r : Request) (sched : List Task) : State :=
  if r.Method != "CONNECT" then
    finished (httpError "Method not allowed" StatusMethodNotAllowed) false
  else
    handleConnect env r sched

/-! ## Observations on traces -/

/-- The status codes passed to `w.WriteHeader`, in call order. -/
def statuses : List Effect → List Nat
  | [] => []
  | Effect.writeHeader code :: rest => code :: statuses rest
  | _ :: rest => statuses rest

/-- The dial calls of a trace, in call order. -/
def dials : List Effect → List Effect
  | [] => []
  | Effect.dial n a t :: rest => Effect.dial n a t :: dials rest
  | _ :: rest => dials rest

/-- The close calls of a trace, in call order. -/
def closes : List Effect → List Effect
  | [] => []
  | Effect.closeClient :: rest => Effect.closeClient :: closes rest
  | Effect.closeTarget :: rest => Effect.closeTarget :: closes rest
  | _ :: rest => closes rest

/-- All bytes handed to `targetConn.Write`, in order. -/
def bytesToTarget : List Effect → List Byte
  | [] => []
  | Effect.writeTarget bs :: rest => bs ++ bytesToTarget rest
  | _ :: rest => bytesToTarget rest

/-- All bytes handed to `clientConn.Write`, in order. -/
def bytesToClient : List Effect → List Byte
  | [] => []
  | Effect.writeClient bs :: rest => bs ++ bytesToClient rest
  | _ :: rest => bytesToClient rest

/-- Relayed-byte writes: the `Write` calls of the two copy loops. -/
def Effect.isCopyWrite : Effect → Bool
  | Effect.writeTarget _ => true
  | Effect.writeClient _ => true
  | _ => false

/-- Calls that only the relay phase makes after the goroutine is started:
copy writes, log lines and the deferred closes. -/
def Effect.isRelayEffect : Effect → Bool
  | Effect.writeTarget _ => true
  | Effect.writeClient _ => true
  | Effect.log _ => true
  | Effect.closeClient => true
  | Effect.closeTarget => true
  | _ => false

/-- The bytes a finite stream of copy-loop iterations delivers by `Read`. -/
def bytesRead : List CopyEvent → List Byte
  | [] => []
  | CopyEvent.chunk bs _ :: rest => bs ++ bytesRead rest
  | _ :: rest => bytesRead rest

/-- Whether an `io.Copy` loop ends with this iteration: at `io.EOF`, at a
`Read` error and at a `Write` error. -/
def CopyEvent.endsCopy : CopyEvent → Bool
  | CopyEvent.chunk _ none => false
  | CopyEvent.chunk _ (some _) => true
  | CopyEvent.eof => true
  | CopyEvent.readErr _ => true

/-- The close calls the handler has made when it stands at a phase. -/
def HandlerPhase.closed : HandlerPhase → List Effect
  | HandlerPhase.closingTarget => [Effect.closeClient]
  | HandlerPhase.returned => [Effect.closeClient, Effect.closeTarget]
  | _ => []

/-- The closing discipline of the relay phase: the closes in the trace are
exactly those the handler has made on its way to its present phase. -/
def ClosesMatch (s : State) : Prop :=
  closes s.trace = s.handler.closed

/-- Number of handler steps from a `Read` of the target-to-client copy until
`handleConnect` has returned, when the remaining iterations are `evs`; `none`
when the copy blocks in `Read` for ever. -/
def readingSteps : List CopyEvent → Option Nat
  | [] => none
  | CopyEvent.eof :: _ => some 3
  | CopyEvent.readErr _ :: _ => some 4
  | CopyEvent.chunk _ (some _) :: _ => some 5
  | CopyEvent.chunk _ none :: rest =>
    match readingSteps rest with
    | some n => some (n + 2)
    | none => none

/-- Number of handler steps until `handleConnect` has returned. -/
def stepsToReturn (phase : HandlerPhase) (evs : List CopyEvent) : Option Nat :=
  match phase with
  | HandlerPhase.returned => some 0
  | HandlerPhase.closingTarget => some 1
  | HandlerPhase.closingClient => some 2
  | HandlerPhase.logging _ => some 3
  | HandlerPhase.writing _ (some _) => some 4
  | HandlerPhase.writing _ none =>
    match readingSteps evs with
    | some n => some (n + 1)
    | none => none
  | HandlerPhase.reading => readingSteps evs

/-! ## Concrete requests and surroundings -/

/-- The request `CONNECT example.com:443 HTTP/1.1`. -/
def reqConnect : Request := { Method := "CONNECT", Host := "example.com:443" }

/-- The request `GET / HTTP/1.1` sent to the proxy. -/
def reqGet : Request := { Method := "GET", Host := "example.com" }

/-- Surroundings in which everything succeeds: the client sends two chunks and
then half-closes, the target answers one chunk and then closes. -/
def envOk : Env :=
  { DialTimeout := fun _ _ _ => Except.ok (),
    isHijacker := true,
    Hijack := Except.ok [],
    clientReads := [CopyEvent.chunk [22, 3] none, CopyEvent.chunk [1] none, CopyEvent.eof],
    targetReads := [CopyEvent.chunk [7, 7] none, CopyEvent.eof],
    closedReadErr := "read tcp: use of closed network connection",
    closedWriteErr := "write tcp: use of closed network connection" }

/-- Surroundings in which the target cannot be reached. -/
def envDialFails : Env :=
  { envOk with DialTimeout := fun _ _ _ => Except.error "connection refused" }

/-- Surroundings whose response writer is not an `http.Hijacker`
(for instance an HTTP/2 response writer or `httptest.ResponseRecorder`). -/
def envNoHijacker : Env :=
  { envOk with isHijacker := false }

/-- Surroundings whose response writer is an `http.Hijacker` but whose
`Hijack` call returns an error. -/
def envHijackFails : Env :=
  { envOk with Hijack := Except.error "http: connection has been hijacked" }

/-- Surroundings in which the client half-closes at once while the target keeps
the connection open after one chunk and sends nothing more. -/
def envClientEOF : Env :=
  { envOk with
    clientReads := [CopyEvent.eof],
    targetReads := [CopyEvent.chunk [7] none] }

/-- Surroundings in which the client sent three bytes right behind its CONNECT
request, so that the HTTP server had already read them into the buffered
reader that `Hijack` returns; two more bytes arrive on the raw connection. -/
def envBuffered : Env :=
  { envOk with
    Hijack := Except.ok [22, 3, 1],
    clientReads := [CopyEvent.chunk [2, 0] none, CopyEvent.eof],
    targetReads := [CopyEvent.eof] }

/-- Surroundings in which the target sends one chunk and its connection is
then reset, while the client is still sending. -/
def envTargetReset : Env :=
  { envOk with
    clientReads := [CopyEvent.chunk [1] none, CopyEvent.chunk [2] none],
    targetReads := [CopyEvent.chunk [7] none, CopyEvent.readErr "connection reset by peer"] }

/-- Surroundings in which the client goes away: the first write of target
bytes to the client connection fails. -/
def envClientGone : Env :=
  { envOk with
    clientReads := [],
    targetReads := [CopyEvent.chunk [7] (some "broken pipe"), CopyEvent.chunk [8] none] }

/-- A schedule for `envTargetReset`: the goroutine relays one client chunk in
between the handler's calls; the handler gets seven steps. -/
def schedTargetReset : List Task :=
  [Task.handler, Task.goroutine, Task.handler, Task.handler, Task.goroutine,
   Task.handler, Task.handler, Task.handler, Task.handler]

/-! ## Lemmas on the observations -/

theorem statuses_append (xs ys : List Effect) :
    statuses (xs ++ ys) = statuses xs ++ statuses ys := by
  induction xs with
  | nil => rfl
  | cons x xs ih => cases x <;> simp [statuses, ih]

theorem dials_append (xs ys : List Effect) :
    dials (xs ++ ys) = dials xs ++ dials ys := by
  induction xs with
  | nil => rfl
  | cons x xs ih => cases x <;> simp [dials, ih]

theorem closes_append (xs ys : List Effect) :
    closes (xs ++ ys) = closes xs ++ closes ys := by
  induction xs with
  | nil => rfl
  | cons x xs ih => cases x <;> simp [closes, ih]

/-- A list of relay-phase calls holds no status write. -/
theorem statuses_of_relayEffects (xs : List Effect)
    (h : ∀ e ∈ xs, e.isRelayEffect = true) : statuses xs = [] := by
  induction xs with
  | nil => rfl
  | cons x xs ih =>
    have hx := h x (List.mem_cons_self x xs)
    have hxs : ∀ e ∈ xs, e.isRelayEffect = true :=
      fun e he => h e (List.mem_cons_of_mem x he)
    cases x <;> simp_all [statuses, Effect.isRelayEffect]

/-- A list of relay-phase calls holds no dial. -/
theorem dials_of_relayEffects (xs : List Effect)
    (h : ∀ e ∈ xs, e.isRelayEffect = true) : dials xs = [] := by
  induction xs with
  | nil => rfl
  | cons x xs ih =>
    have hx := h x (List.mem_cons_self x xs)
    have hxs : ∀ e ∈ xs, e.isRelayEffect = true :=
      fun e he => h e (List.mem_cons_of_mem x he)
    cases x <;> simp_all [dials, Effect.isRelayEffect]

/-! ## Lemmas on the relay phase -/

/-- A goroutine step only appends relay-phase calls. -/
theorem stepGoroutine_trace (env : Env) (s : State) :
    ∃ ext, (stepGoroutine env s).trace = s.trace ++ ext ∧
      ∀ e ∈ ext, e.isRelayEffect = true := by
  unfold stepGoroutine
  split
  · exact ⟨[], by simp, by simp⟩
  · exact ⟨_, rfl, by simp [Effect.isRelayEffect]⟩
  · split
    · exact ⟨_, rfl, by simp [Effect.isRelayEffect]⟩
    · exact ⟨_, rfl, by simp [Effect.isRelayEffect]⟩
  · split
    · exact ⟨[], by simp, by simp⟩
    · split <;> exact ⟨[], by simp, by simp⟩

/-- A handler step only appends relay-phase calls. -/
theorem stepHandler_trace (s : State) :
    ∃ ext, (stepHandler s).trace = s.trace ++ ext ∧
      ∀ e ∈ ext, e.isRelayEffect = true := by
  unfold stepHandler
  split
  · exact ⟨[], by simp, by simp⟩
  · exact ⟨_, rfl, by simp [Effect.isRelayEffect]⟩
  · exact ⟨_, rfl, by simp [Effect.isRelayEffect]⟩
  · exact ⟨_, rfl, by simp [Effect.isRelayEffect]⟩
  · exact ⟨_, rfl, by simp [Effect.isRelayEffect]⟩
  · exact ⟨_, rfl, by simp [Effect.isRelayEffect]⟩
  · split <;> exact ⟨[], by simp, by simp⟩

theorem relay_cons (env : Env) (s : State) (t : Task) (ts : List Task) :
    relay env s (t :: ts) = relay env (step env s t) ts := rfl

theorem relay_append (env : Env) (s : State) (xs ys : List Task) :
    relay env s (xs ++ ys) = relay env (relay env s xs) ys := by
  simp [relay, List.foldl_append]

/-- The relay phase only appends relay-phase calls to the trace. -/
theorem relay_trace (env : Env) (sched : List Task) (s : State) :
    ∃ ext, (relay env s sched).trace = s.trace ++ ext ∧
      ∀ e ∈ ext, e.isRelayEffect = true := by
  induction sched generalizing s with
  | nil => exact ⟨[], by simp [relay], by simp⟩
  | cons t ts ih =>
    have hstep : ∃ ext, (step env s t).trace = s.trace ++ ext ∧
        ∀ e ∈ ext, e.isRelayEffect = true := by
      cases t
      · exact stepGoroutine_trace env s
      · exact stepHandler_trace s
    obtain ⟨e1, h1, r1⟩ := hstep
    obtain ⟨e2, h2, r2⟩ := ih (step env s t)
    refine ⟨e1 ++ e2, ?_, ?_⟩
    · rw [relay_cons, h2, h1, List.append_assoc]
    · intro e he
      rcases List.mem_append.mp he with h | h
      · exact r1 e h
      · exact r2 e h

/-- A goroutine step closes nothing and leaves the handler where it stands. -/
theorem stepGoroutine_closes (env : Env) (s : State) :
    closes (stepGoroutine env s).trace = closes s.trace ∧
      (stepGoroutine env s).handler = s.handler ∧
      (stepGoroutine env s).targetReads = s.targetReads := by
  unfold stepGoroutine
  split
  · exact ⟨rfl, rfl, rfl⟩
  · simp [closes_append, closes]
  · split <;> simp [closes_append, closes]
  · split
    · exact ⟨rfl, rfl, rfl⟩
    · split <;> exact ⟨rfl, rfl, rfl⟩

theorem stepHandler_closesMatch (s : State) (h : ClosesMatch s) :
    ClosesMatch (stepHandler s) := by
  unfold ClosesMatch at *
  unfold stepHandler
  split
  · exact h
  · rename_i hp
    simp [hp, HandlerPhase.closed] at h
    simp [closes_append, closes, h, HandlerPhase.closed]
  · rename_i hp
    simp [hp, HandlerPhase.closed] at h
    simp [closes_append, closes, h, HandlerPhase.closed]
  · rename_i hp
    simp [hp, HandlerPhase.closed] at h
    simp [closes_append, closes, h, HandlerPhase.closed]
  · rename_i hp
    simp [hp, HandlerPhase.closed] at h
    simp [closes_append, closes, h, HandlerPhase.closed]
  · rename_i hp
    simp [hp, HandlerPhase.closed] at h
    simp [closes_append, closes, h, HandlerPhase.closed]
  · rename_i hp
    simp [hp, HandlerPhase.closed] at h
    split <;> simp [h, hp, HandlerPhase.closed]

theorem step_closesMatch (env : Env) (s : State) (t : Task) (h : ClosesMatch s) :
    ClosesMatch (step env s t) := by
  cases t
  · unfold ClosesMatch at *
    have hg := stepGoroutine_closes env s
    show closes (stepGoroutine env s).trace = (stepGoroutine env s).handler.closed
    rw [hg.1, hg.2.1]
    exact h
  · exact stepHandler_closesMatch s h

theorem relay_closesMatch (env : Env) (sched : List Task) (s : State)
    (h : ClosesMatch s) : ClosesMatch (relay env s sched) := by
  induction sched generalizing s with
  | nil => exact h
  | cons t ts ih => exact ih (step env s t) (step_closesMatch env s t h)

/-- The closes a handler phase stands for: none, the client, or both in order. -/
theorem HandlerPhase.closed_cases (p : HandlerPhase) :
    p.closed = [] ∨ p.closed = [Effect.closeClient] ∨
      p.closed = [Effect.closeClient, Effect.closeTarget] := by
  cases p <;> simp [HandlerPhase.closed]

/-! ## The handler reaches its return -/

theorem readingSteps_pos (evs : List CopyEvent) (n : Nat)
    (h : readingSteps evs = some n) : 3 ≤ n := by
  induction evs generalizing n with
  | nil => simp [readingSteps] at h
  | cons ev rest ih =>
    cases ev with
    | eof => simp [readingSteps] at h; omega
    | readErr e => simp [readingSteps] at h; omega
    | chunk bs w =>
      cases w with
      | some e => simp [readingSteps] at h; omega
      | none =>
        cases hr : readingSteps rest with
        | none => simp [readingSteps, hr] at h
        | some m =>
          simp [readingSteps, hr] at h
          have := ih m hr
          omega

/-- A copy that meets an ending iteration after `pre` plain ones needs at most
`2 * pre.length + 5` handler steps until `handleConnect` has returned. -/
theorem readingSteps_bound (pre : List CopyEvent) (ev : CopyEvent)
    (rest : List CopyEvent) (hpre : ∀ e ∈ pre, e.endsCopy = false)
    (hev : ev.endsCopy = true) :
    ∃ n, readingSteps (pre ++ ev :: rest) = some n ∧ n ≤ 2 * pre.length + 5 := by
  induction pre with
  | nil =>
    cases ev with
    | eof => exact ⟨3, rfl, by simp⟩
    | readErr e => exact ⟨4, rfl, by simp⟩
    | chunk bs w =>
      cases w with
      | some e => exact ⟨5, rfl, by simp⟩
      | none => simp [CopyEvent.endsCopy] at hev
  | cons p ps ih =>
    have hp := hpre p (List.mem_cons_self p ps)
    obtain ⟨n, hn, hle⟩ := ih (fun e he => hpre e (List.mem_cons_of_mem p he))
    cases p with
    | eof => simp [CopyEvent.endsCopy] at hp
    | readErr e => simp [CopyEvent.endsCopy] at hp
    | chunk bs w =>
      cases w with
      | some e => simp [CopyEvent.endsCopy] at hp
      | none =>
        refine ⟨n + 2, ?_, ?_⟩
        · simp [readingSteps, hn]
        · simp only [List.length_cons]; omega

/-- A handler step brings the return one step nearer. -/
theorem stepHandler_stepsToReturn (s : State) (n : Nat)
    (h : stepsToReturn s.handler s.targetReads = some (n + 1)) :
    stepsToReturn (stepHandler s).handler (stepHandler s).targetReads = some n := by
  unfold stepHandler
  split
  · rename_i hp; simp [hp, stepsToReturn] at h
  · rename_i hp; simp [hp, stepsToReturn] at h; simp [stepsToReturn, h]
  · rename_i hp; simp [hp, stepsToReturn] at h; simp [stepsToReturn, ← h]
  · rename_i hp; simp [hp, stepsToReturn] at h; simp [stepsToReturn, ← h]
  · rename_i hp
    simp only [hp, stepsToReturn] at h
    cases hr : readingSteps s.targetReads with
    | none => simp [hr] at h
    | some m => simp [hr] at h; simp [stepsToReturn, hr, h]
  · rename_i hp; simp [hp, stepsToReturn] at h; simp [stepsToReturn, ← h]
  · rename_i hp
    simp only [hp, stepsToReturn] at h
    split
    · rename_i hr; simp [hr, readingSteps] at h
    · rename_i bs w rest hr
      rw [hr] at h
      cases w with
      | some e => simp [readingSteps] at h; simp [stepsToReturn, ← h]
      | none =>
        cases hm : readingSteps rest with
        | none => simp [readingSteps, hm] at h
        | some m => simp [readingSteps, hm] at h; simp [stepsToReturn, hm, ← h]
    · rename_i rest hr
      rw [hr] at h
      simp [readingSteps] at h; simp [stepsToReturn, ← h]
    · rename_i e rest hr
      rw [hr] at h
      simp [readingSteps] at h; simp [stepsToReturn, ← h]

theorem stepsToReturn_zero (s : State)
    (h : stepsToReturn s.handler s.targetReads = some 0) : s.returned = true := by
  unfold State.returned
  cases hp : s.handler with
  | returned => rfl
  | closingTarget => simp [hp, stepsToReturn] at h
  | closingClient => simp [hp, stepsToReturn] at h
  | logging e => simp [hp, stepsToReturn] at h
  | writing bs w =>
    cases w with
    | some e => simp [hp, stepsToReturn] at h
    | none =>
      cases hr : readingSteps s.targetReads with
      | none => simp [hp, stepsToReturn, hr] at h
      | some m => simp [hp, stepsToReturn, hr] at h
  | reading =>
    simp only [hp, stepsToReturn] at h
    have := readingSteps_pos _ _ h
    omega

/-- Once `handleConnect` has returned it stays returned. -/
theorem relay_returned (env : Env) (sched : List Task) (s : State)
    (h : s.returned = true) : (relay env s sched).returned = true := by
  induction sched generalizing s with
  | nil => exact h
  | cons t ts ih =>
    rw [relay_cons]
    apply ih
    have hp : s.handler = HandlerPhase.returned := by
      unfold State.returned at h
      cases hs : s.handler <;> simp [hs] at h ⊢
    cases t
    · show (stepGoroutine env s).returned = true
      unfold State.returned
      rw [(stepGoroutine_closes env s).2.1, hp]
    · show (stepHandler s).returned = true
      have : stepHandler s = s := by unfold stepHandler; simp [hp]
      rw [this]; exact h

/-- Whatever the goroutine does in between, a handler that is `n` of its own
steps away from its return has returned after any schedule that gives it `n`
steps. -/
theorem relay_returns (env : Env) (sched : List Task) (s : State) (n : Nat)
    (h : stepsToReturn s.handler s.targetReads = some n)
    (hn : n ≤ sched.count Task.handler) : (relay env s sched).returned = true := by
  induction sched generalizing s n with
  | nil =>
    have h0 : n = 0 := by simpa using hn
    subst h0
    exact stepsToReturn_zero s h
  | cons t ts ih =>
    rw [relay_cons]
    cases t with
    | goroutine =>
      have hg := stepGoroutine_closes env s
      apply ih (step env s Task.goroutine) n
      · show stepsToReturn (stepGoroutine env s).handler
          (stepGoroutine env s).targetReads = some n
        rw [hg.2.1, hg.2.2]; exact h
      · simpa using hn
    | handler =>
      cases n with
      | zero =>
        apply relay_returned
        have : stepHandler s = s := by
          have hr := stepsToReturn_zero s h
          unfold State.returned at hr
          unfold stepHandler
          cases hs : s.handler <;> simp [hs] at hr ⊢
        show (stepHandler s).returned = true
        rw [this]; exact stepsToReturn_zero s h
      | succ k =>
        apply ih (step env s Task.handler) k
        · exact stepHandler_stepsToReturn s k h
        · simp at hn; omega

/-- When the target-to-client copy has returned, the handler is at most three
of its own steps away from its return. -/
theorem stepsToReturn_of_done (s : State) (h : s.targetToClientDone = true) :
    ∃ n, stepsToReturn s.handler s.targetReads = some n ∧ n ≤ 3 := by
  unfold State.targetToClientDone at h
  cases hp : s.handler with
  | returned => exact ⟨0, by simp [stepsToReturn], by omega⟩
  | closingTarget => exact ⟨1, by simp [stepsToReturn], by omega⟩
  | closingClient => exact ⟨2, by simp [stepsToReturn], by omega⟩
  | logging e => exact ⟨3, by simp [stepsToReturn], by omega⟩
  | writing bs w => simp [hp] at h
  | reading => simp [hp] at h

/-! ## Shape of a `handleConnect` run -/

/-- With a successful dial and a successful takeover `handleConnect` is the
relay phase run from `relayStart`. -/
theorem handleConnect_relay (env : Env) (r : Request) (sched : List Task)
    (buffered : List Byte)
    (hdial : env.DialTimeout "tcp" r.Host (10 * Second) = Except.ok ())
    (hhij : env.isHijacker = true) (hok : env.Hijack = Except.ok buffered) :
    handleConnect env r sched = relay env (relayStart env r) sched := by
  simp [handleConnect, hdial, hhij, hok]

/-- Once in the relay phase, `handleConnect` keeps the closing discipline
under every schedule. -/
theorem handleConnect_closesMatch (env : Env) (r : Request) (sched : List Task)
    (buffered : List Byte)
    (hdial : env.DialTimeout "tcp" r.Host (10 * Second) = Except.ok ())
    (hhij : env.isHijacker = true) (hok : env.Hijack = Except.ok buffered) :
    ClosesMatch (handleConnect env r sched) := by
  rw [handleConnect_relay env r sched buffered hdial hhij hok]
  apply relay_closesMatch
  show closes _ = _
  rfl

/-- In the relay phase a returned `handleConnect` has closed the client and
then the target. -/
theorem handleConnect_closes_of_returned (env : Env) (r : Request)
    (sched : List Task) (buffered : List Byte)
    (hdial : env.DialTimeout "tcp" r.Host (10 * Second) = Except.ok ())
    (hhij : env.isHijacker = true) (hok : env.Hijack = Except.ok buffered)
    (hret : (handleConnect env r sched).returned = true) :
    closes (handleConnect env r sched).trace =
      [Effect.closeClient, Effect.closeTarget] := by
  have h := handleConnect_closesMatch env r sched buffered hdial hhij hok
  unfold ClosesMatch at h
  rw [h]
  unfold State.returned at hret
  cases hp : (handleConnect env r sched).handler <;>
    simp [hp, HandlerPhase.closed] at hret ⊢

/-- After a successful dial the trace starts with the dial and the 200. -/
theorem handleConnect_trace_after_dial (env : Env) (r : Request) (sched : List Task)
    (hdial : env.DialTimeout "tcp" r.Host (10 * Second) = Except.ok ()) :
    ∃ post, (handleConnect env r sched).trace =
      Effect.dial "tcp" r.Host (10 * Second) :: Effect.writeHeader StatusOK :: post := by
  cases hhij : env.isHijacker with
  | false => exact ⟨_, by simp [handleConnect, hdial, hhij, finished]; rfl⟩
  | true =>
    cases hok : env.Hijack with
    | error err => exact ⟨_, by simp [handleConnect, hdial, hhij, hok, finished]; rfl⟩
    | ok buffered =>
      rw [handleConnect_relay env r sched buffered hdial hhij hok]
      obtain ⟨ext, hext, _⟩ := relay_trace env sched (relayStart env r)
      exact ⟨_, by rw [hext]; rfl⟩

/-! ## Method check and dial -/

/-- C1: a request whose method is not exactly "CONNECT" gets exactly one
status write, 405, and `ServeHTTP` returns without any dial and without any
`Hijack` call. -/
theorem ServeHTTP_non_connect_405 (env : Env) (r : Request) (sched : List Task)
    (h : r.Method ≠ "CONNECT") :
    statuses (ServeHTTP env r sched).trace = [405] ∧
    dials (ServeHTTP env r sched).trace = [] ∧
    Effect.hijack ∉ (ServeHTTP env r sched).trace ∧
    (ServeHTTP env r sched).returned = true := by
  simp [ServeHTTP, h, finished, httpError, statuses, dials, StatusMethodNotAllowed,
    State.returned]

theorem ServeHTTP_non_connect_405_witness :
    reqGet.Method ≠ "CONNECT" ∧
    statuses (ServeHTTP envOk reqGet [Task.handler]).trace = [405] ∧
    dials (ServeHTTP envOk reqGet [Task.handler]).trace = [] ∧
    Effect.hijack ∉ (ServeHTTP envOk reqGet [Task.handler]).trace ∧
    (ServeHTTP envOk reqGet [Task.handler]).returned = true :=
  ⟨by decide, ServeHTTP_non_connect_405 envOk reqGet [Task.handler] (by decide)⟩

/-- C7: whatever the surroundings answer, `handleConnect` makes exactly one
dial call: network "tcp", the address is the request's host string unchanged,
the timeout is ten seconds (10000000000 ns).  A failed dial is not repeated. -/
theorem handleConnect_dials_once (env : Env) (r : Request) (sched : List Task) :
    dials (handleConnect env r sched).trace =
      [Effect.dial "tcp" r.Host 10000000000] := by
  show dials (handleConnect env r sched).trace =
    [Effect.dial "tcp" r.Host (10 * Second)]
  cases hdial : env.DialTimeout "tcp" r.Host (10 * Second) with
  | error err =>
    simp [handleConnect, hdial, finished, httpError, dials]
  | ok u =>
    cases hhij : env.isHijacker with
    | false => simp [handleConnect, hdial, hhij, finished, httpError, dials]
    | true =>
      cases hok : env.Hijack with
      | error err => simp [handleConnect, hdial, hhij, hok, finished, dials]
      | ok buffered =>
        rw [handleConnect_relay env r sched buffered hdial hhij hok]
        obtain ⟨ext, hext, hrel⟩ := relay_trace env sched (relayStart env r)
        rw [hext, dials_append, dials_of_relayEffects ext hrel]
        simp [dials, relayStart]

/-! ## Dial failure -/

/-- C2 (as the code behaves): when the dial fails, `handleConnect` writes
exactly one status, 502, never calls `Hijack`, makes no copy write in either
direction, returns, and closes no channel itself: the client connection stays
with the hosting HTTP server. -/
theorem handleConnect_dial_failure (env : Env) (r : Request) (sched : List Task)
    (err : String)
    (hdial : env.DialTimeout "tcp" r.Host (10 * Second) = Except.error err) :
    statuses (handleConnect env r sched).trace = [502] ∧
    Effect.hijack ∉ (handleConnect env r sched).trace ∧
    (∀ e ∈ (handleConnect env r sched).trace, e.isCopyWrite = false) ∧
    closes (handleConnect env r sched).trace = [] ∧
    (handleConnect env r sched).returned = true := by
  simp [handleConnect, hdial, finished, httpError, statuses, closes,
    Effect.isCopyWrite, StatusBadGateway, State.returned]

theorem handleConnect_dial_failure_witness :
    envDialFails.DialTimeout "tcp" reqConnect.Host (10 * Second) =
      Except.error "connection refused" ∧
    statuses (handleConnect envDialFails reqConnect [Task.handler]).trace = [502] ∧
    Effect.hijack ∉ (handleConnect envDialFails reqConnect [Task.handler]).trace ∧
    (∀ e ∈ (handleConnect envDialFails reqConnect [Task.handler]).trace,
      e.isCopyWrite = false) ∧
    closes (handleConnect envDialFails reqConnect [Task.handler]).trace = [] ∧
    (handleConnect envDialFails reqConnect [Task.handler]).returned = true :=
  ⟨rfl, handleConnect_dial_failure envDialFails reqConnect [Task.handler]
    "connection refused" rfl⟩

/-- C2 as stated fails: with a refused dial the handler returns after the 502
and its trace holds no close of the client channel. -/
theorem handleConnect_dial_failure_no_client_close :
    envDialFails.DialTimeout "tcp" reqConnect.Host (10 * Second) =
      Except.error "connection refused" ∧
    statuses (handleConnect envDialFails reqConnect []).trace = [502] ∧
    (handleConnect envDialFails reqConnect []).returned = true ∧
    Effect.closeClient ∉ (handleConnect envDialFails reqConnect []).trace := by
  refine ⟨rfl, ?_, ?_, ?_⟩ <;> decide

/-! ## Status written after a successful dial -/

/-- C5: after a successful dial the trace reads `pre ++ [WriteHeader 200] ++ post`
where `pre` holds no status write, no `Hijack` call and no copy write: the 200
is the first status written and precedes the takeover and every relayed byte. -/
theorem handleConnect_200_first (env : Env) (r : Request) (sched : List Task)
    (hdial : env.DialTimeout "tcp" r.Host (10 * Second) = Except.ok ()) :
    ∃ pre post,
      (handleConnect env r sched).trace = pre ++ Effect.writeHeader 200 :: post ∧
      statuses pre = [] ∧ Effect.hijack ∉ pre ∧
      ∀ e ∈ pre, e.isCopyWrite = false := by
  obtain ⟨post, hpost⟩ := handleConnect_trace_after_dial env r sched hdial
  refine ⟨[Effect.dial "tcp" r.Host (10 * Second)], post, ?_, ?_, ?_, ?_⟩
  · rw [hpost]; rfl
  · rfl
  · simp
  · simp [Effect.isCopyWrite]

theorem handleConnect_200_first_witness :
    envOk.DialTimeout "tcp" reqConnect.Host (10 * Second) = Except.ok () ∧
    ∃ pre post,
      (handleConnect envOk reqConnect [Task.goroutine, Task.handler]).trace =
        pre ++ Effect.writeHeader 200 :: post ∧
      statuses pre = [] ∧ Effect.hijack ∉ pre ∧
      ∀ e ∈ pre, e.isCopyWrite = false :=
  ⟨rfl, handleConnect_200_first envOk reqConnect [Task.goroutine, Task.handler] rfl⟩

/-- C3: with a response writer that is not an `http.Hijacker` the handler has
already written status 200 when it reaches the capability check; the 500 of
`http.Error` is the second status write. -/
theorem handleConnect_no_hijacker_statuses :
    envNoHijacker.DialTimeout "tcp" reqConnect.Host (10 * Second) = Except.ok () ∧
    envNoHijacker.isHijacker = false ∧
    statuses (handleConnect envNoHijacker reqConnect []).trace = [200, 500] ∧
    (statuses (handleConnect envNoHijacker reqConnect []).trace).head? ≠ some 500 := by
  refine ⟨rfl, rfl, ?_, ?_⟩ <;> decide

/-- C8: when `Hijack` returns an error the handler logs and returns; the only
status it ever wrote is the 200, no 500 follows. -/
theorem handleConnect_hijack_error_statuses :
    envHijackFails.DialTimeout "tcp" reqConnect.Host (10 * Second) = Except.ok () ∧
    envHijackFails.isHijacker = true ∧
    envHijackFails.Hijack = Except.error "http: connection has been hijacked" ∧
    statuses (handleConnect envHijackFails reqConnect []).trace = [200] ∧
    500 ∉ statuses (handleConnect envHijackFails reqConnect []).trace := by
  refine ⟨rfl, rfl, rfl, ?_, ?_⟩ <;> decide

/-- C9: on the success path the handler passes only the code 200 to
`WriteHeader` and writes nothing else on the response writer, so the reason
phrase on the status line is the one `net/http` attaches to 200, "OK". -/
theorem handleConnect_success_reason_phrase :
    envOk.DialTimeout "tcp" reqConnect.Host (10 * Second) = Except.ok () ∧
    (handleConnect envOk reqConnect []).trace =
      [Effect.dial "tcp" "example.com:443" 10000000000, Effect.writeHeader 200,
       Effect.hijack, Effect.spawn] ∧
    StatusText 200 = "OK" ∧
    StatusText 200 ≠ "Connection Established" := by
  refine ⟨rfl, ?_, ?_, ?_⟩ <;> decide

/-! ## Closing the channels -/

/-- C4 (as the code behaves): in the relay phase the handler closes the
channels when, and only when, its own target-to-client copy has ended.
(1) While that copy runs nothing is closed, whatever the client-to-target
goroutine has done.  (2) The closes are `clientConn.Close()` and then
`targetConn.Close()`, each at most once.  (3) If the target stream meets an
ending iteration (end-of-stream, a read error, or a failed write to the
client) after `pre` plain ones, every schedule that gives the handler
`2 * pre.length + 5` steps ends with `handleConnect` returned and both
channels closed.  (4) From any point at which the target-to-client copy has
ended, three more handler steps suffice for that, however the goroutine is
interleaved.  (5) A step of the goroutine, the one ending its copy included,
closes nothing and does not move the handler. -/
theorem relay_closes_when_handler_copy_ends (env : Env) (r : Request)
    (sched : List Task) (buffered : List Byte)
    (hdial : env.DialTimeout "tcp" r.Host (10 * Second) = Except.ok ())
    (hhij : env.isHijacker = true) (hok : env.Hijack = Except.ok buffered) :
    ((handleConnect env r sched).targetToClientDone = false →
      closes (handleConnect env r sched).trace = []) ∧
    (closes (handleConnect env r sched).trace = [] ∨
      closes (handleConnect env r sched).trace = [Effect.closeClient] ∨
      closes (handleConnect env r sched).trace =
        [Effect.closeClient, Effect.closeTarget]) ∧
    (∀ (pre : List CopyEvent) (ev : CopyEvent) (rest : List CopyEvent),
      env.targetReads = pre ++ ev :: rest →
      (∀ e ∈ pre, e.endsCopy = false) → ev.endsCopy = true →
      2 * pre.length + 5 ≤ sched.count Task.handler →
      (handleConnect env r sched).returned = true ∧
      closes (handleConnect env r sched).trace =
        [Effect.closeClient, Effect.closeTarget]) ∧
    ((handleConnect env r sched).targetToClientDone = true →
      ∀ more : List Task, 3 ≤ more.count Task.handler →
      (handleConnect env r (sched ++ more)).returned = true ∧
      closes (handleConnect env r (sched ++ more)).trace =
        [Effect.closeClient, Effect.closeTarget]) ∧
    (∀ s : State, closes (stepGoroutine env s).trace = closes s.trace ∧
      (stepGoroutine env s).handler = s.handler) := by
  have hinv := handleConnect_closesMatch env r sched buffered hdial hhij hok
  unfold ClosesMatch at hinv
  refine ⟨?_, ?_, ?_, ?_, ?_⟩
  · intro hrun
    rw [hinv]
    unfold State.targetToClientDone at hrun
    cases hp : (handleConnect env r sched).handler <;>
      simp [hp, HandlerPhase.closed] at hrun ⊢
  · rw [hinv]
    exact HandlerPhase.closed_cases _
  · intro pre ev rest htr hpre hev hcount
    obtain ⟨n, hn, hle⟩ := readingSteps_bound pre ev rest hpre hev
    have hret : (handleConnect env r sched).returned = true := by
      rw [handleConnect_relay env r sched buffered hdial hhij hok]
      apply relay_returns env sched (relayStart env r) n
      · show readingSteps env.targetReads = some n
        rw [htr]; exact hn
      · omega
    exact ⟨hret,
      handleConnect_closes_of_returned env r sched buffered hdial hhij hok hret⟩
  · intro hdone more hcount
    obtain ⟨n, hn, hle⟩ := stepsToReturn_of_done _ hdone
    have hret : (handleConnect env r (sched ++ more)).returned = true := by
      rw [handleConnect_relay env r (sched ++ more) buffered hdial hhij hok,
        relay_append, ← handleConnect_relay env r sched buffered hdial hhij hok]
      exact relay_returns env more _ n hn (by omega)
    exact ⟨hret,
      handleConnect_closes_of_returned env r (sched ++ more) buffered hdial hhij hok hret⟩
  · intro s
    exact ⟨(stepGoroutine_closes env s).1, (stepGoroutine_closes env s).2.1⟩

theorem relay_closes_when_handler_copy_ends_witness :
    envTargetReset.DialTimeout "tcp" reqConnect.Host (10 * Second) = Except.ok () ∧
    envTargetReset.isHijacker = true ∧ envTargetReset.Hijack = Except.ok [] ∧
    envTargetReset.targetReads =
      [CopyEvent.chunk [7] none] ++
        CopyEvent.readErr "connection reset by peer" :: [] ∧
    2 * [CopyEvent.chunk [7] none].length + 5 ≤ schedTargetReset.count Task.handler ∧
    (handleConnect envTargetReset reqConnect schedTargetReset).clientToTargetDone
      = false ∧
    (handleConnect envTargetReset reqConnect schedTargetReset).returned = true ∧
    closes (handleConnect envTargetReset reqConnect schedTargetReset).trace =
      [Effect.closeClient, Effect.closeTarget] :=
  ⟨rfl, rfl, rfl, rfl, by decide, by decide,
    (relay_closes_when_handler_copy_ends envTargetReset reqConnect schedTargetReset
      [] rfl rfl rfl).2.2.1 [CopyEvent.chunk [7] none]
      (CopyEvent.readErr "connection reset by peer") [] rfl (by decide) rfl
      (by decide)⟩

/-- C4 as stated fails: the client half-closes, the client-to-target copy ends
first, the handler goes on copying from the target and then blocks in `Read`;
neither channel has been closed and `handleConnect` has not returned. -/
theorem relay_client_copy_ends_nothing_closed :
    (handleConnect envClientEOF reqConnect
      [Task.goroutine, Task.handler, Task.handler]).clientToTargetDone = true ∧
    (handleConnect envClientEOF reqConnect
      [Task.goroutine, Task.handler, Task.handler]).returned = false ∧
    Effect.closeClient ∉ (handleConnect envClientEOF reqConnect
      [Task.goroutine, Task.handler, Task.handler]).trace ∧
    Effect.closeTarget ∉ (handleConnect envClientEOF reqConnect
      [Task.goroutine, Task.handler, Task.handler]).trace := by
  refine ⟨?_, ?_, ?_, ?_⟩ <;> decide

/-- A failed write to the client ends the target-to-client copy as well: the
handler logs, closes the client, closes the target and returns. -/
theorem relay_client_write_error_closes :
    (handleConnect envClientGone reqConnect
      [Task.handler, Task.handler, Task.handler, Task.handler, Task.handler]).trace =
      [Effect.dial "tcp" "example.com:443" 10000000000, Effect.writeHeader 200,
       Effect.hijack, Effect.spawn, Effect.writeClient [7],
       Effect.log "Target->Client copy error: broken pipe",
       Effect.closeClient, Effect.closeTarget] ∧
    (handleConnect envClientGone reqConnect
      [Task.handler, Task.handler, Task.handler, Task.handler, Task.handler]).returned
      = true := by
  refine ⟨?_, ?_⟩ <;> decide

/-- The goroutine can run between the two deferred closes: its `Read` on the
closed client connection fails and is logged before the target is closed. -/
theorem relay_goroutine_between_closes :
    (handleConnect envTargetReset reqConnect
      [Task.handler, Task.handler, Task.handler, Task.handler, Task.handler,
       Task.goroutine, Task.goroutine, Task.handler]).trace =
      [Effect.dial "tcp" "example.com:443" 10000000000, Effect.writeHeader 200,
       Effect.hijack, Effect.spawn, Effect.writeClient [7],
       Effect.log "Target->Client copy error: connection reset by peer",
       Effect.closeClient,
       Effect.log "Client->Target copy error: read tcp: use of closed network connection",
       Effect.closeTarget] := by
  decide

/-- C10: whenever `handleConnect` returns after a successful dial it has closed
the target channel exactly once; if it had taken over the client connection it
has also closed that exactly once, before the target; without takeover
(no `http.Hijacker`, or `Hijack` failed) the target close is its only close. -/
theorem handleConnect_closes_on_return (env : Env) (r : Request) (sched : List Task)
    (hdial : env.DialTimeout "tcp" r.Host (10 * Second) = Except.ok ())
    (hret : (handleConnect env r sched).returned = true) :
    closes (handleConnect env r sched).trace =
      (if env.isHijacker then
        match env.Hijack with
        | Except.ok _ => [Effect.closeClient, Effect.closeTarget]
        | Except.error _ => [Effect.closeTarget]
      else [Effect.closeTarget]) := by
  cases hhij : env.isHijacker with
  | false => simp [handleConnect, hdial, hhij, finished, httpError, closes]
  | true =>
    cases hok : env.Hijack with
    | error err => simp [handleConnect, hdial, hhij, hok, finished, closes]
    | ok buffered =>
      simpa using
        handleConnect_closes_of_returned env r sched buffered hdial hhij hok hret

theorem handleConnect_closes_on_return_witness :
    envOk.DialTimeout "tcp" reqConnect.Host (10 * Second) = Except.ok () ∧
    (handleConnect envOk reqConnect
      [Task.goroutine, Task.handler, Task.handler, Task.goroutine, Task.handler,
       Task.handler, Task.handler]).returned = true ∧
    closes (handleConnect envOk reqConnect
      [Task.goroutine, Task.handler, Task.handler, Task.goroutine, Task.handler,
       Task.handler, Task.handler]).trace =
      (if envOk.isHijacker then
        match envOk.Hijack with
        | Except.ok _ => [Effect.closeClient, Effect.closeTarget]
        | Except.error _ => [Effect.closeTarget]
      else [Effect.closeTarget]) :=
  ⟨rfl, by decide,
    handleConnect_closes_on_return envOk reqConnect
      [Task.goroutine, Task.handler, Task.handler, Task.goroutine, Task.handler,
       Task.handler, Task.handler] rfl (by decide)⟩

/-! ## Byte-exactness of the relay -/

/-- C6: `Hijack` hands back three client bytes in its buffered reader and the
raw connection then delivers two more; the handler drops the reader, so the
target is written the two later bytes only, not the five the client sent. -/
theorem handleConnect_drops_buffered_bytes :
    envBuffered.Hijack = Except.ok [22, 3, 1] ∧
    bytesRead envBuffered.clientReads = [2, 0] ∧
    (handleConnect envBuffered reqConnect
      [Task.goroutine, Task.goroutine, Task.goroutine,
       Task.handler, Task.handler, Task.handler]).returned = true ∧
    bytesToTarget (handleConnect envBuffered reqConnect
      [Task.goroutine, Task.goroutine, Task.goroutine,
       Task.handler, Task.handler, Task.handler]).trace = [2, 0] ∧
    bytesToTarget (handleConnect envBuffered reqConnect
      [Task.goroutine, Task.goroutine, Task.goroutine,
       Task.handler, Task.handler, Task.handler]).trace ≠
      [22, 3, 1] ++ bytesRead envBuffered.clientReads := by
  refine ⟨rfl, ?_, ?_, ?_, ?_⟩ <;> decide

end Proxy
